import Mathlib

/-!
Verification of the background job worker core of `practice_be`.

The Go source is shallowly embedded:
* `GoError` models the error values built from `internal/worker/domain`
  (sentinel errors, `RetryableError`, `fmt.Errorf` wrapping with `%w`,
  and foreign errors with no unwrap chain);
* `errorsIs` / `asRetryable` model `errors.Is` / `errors.As` restricted to
  the uses that occur in the worker;
* `ClaimJob`, `UpdateJobStatus`, `UpdateJobHeartbeat` give the relational
  semantics of the SQL statements in `internal/worker/storage/storage.go`;
* `processJob`, `shouldRequeueJob`, `workerIteration` embed the executor and
  the pool loop of `internal/worker` (`processJob` in the executor file and
  `pool.go`);
* `EncodeJobCursor` / `DecodeJobCursor` embed
  `internal/api/handler/cursor.go`, with Go strings as byte lists and an
  executable base64 codec.
-/

/-- Doc models the decoded JSON payload / result document
(`map[string]interface{}` flattened to key-value pairs). -/
abbrev Doc := List (String × String)

instance {ε α : Type} [DecidableEq ε] [DecidableEq α] : DecidableEq (Except ε α) :=
  fun x y =>
    match x, y with
    | Except.ok a, Except.ok b =>
        if h : a = b then isTrue (congrArg Except.ok h)
        else isFalse (fun hh => h (Except.ok.inj hh))
    | Except.ok _, Except.error _ => isFalse (fun hh => Except.noConfusion hh)
    | Except.error _, Except.ok _ => isFalse (fun hh => Except.noConfusion hh)
    | Except.error e, Except.error e2 =>
        if h : e = e2 then isTrue (congrArg Except.error h)
        else isFalse (fun hh => h (Except.error.inj hh))

/-- GoError models the error values that flow through the worker.
Constructors `errJobNotFound`..`errMaxRetriesExceeded` are the four
`errors.New` sentinels of `internal/worker/domain`; `retryable` is
`*domain.RetryableError`; `wrap msg inner` is `fmt.Errorf` with `%w`
(message `msg`, unwrap target `inner`); `other` is an error from outside
the domain package with no unwrap chain (driver errors, `ctx.Err()`,
`json` errors). -/
inductive GoError where
  | errJobNotFound
  | errJobAlreadyClaimed
  | errInvalidPayload
  | errMaxRetriesExceeded
  | retryable (inner : GoError)
  | wrap (msg : String) (inner : GoError)
  | other (msg : String)
deriving DecidableEq, Repr

/-- The `Error()` string of a `GoError`, following `domain/errors.go` and the
`fmt.Errorf` format strings at each construction site. -/
def GoError.errString : GoError → String
  | .errJobNotFound => "job not found"
  | .errJobAlreadyClaimed => "job already claimed or not in PENDING status"
  | .errInvalidPayload => "invalid job payload"
  | .errMaxRetriesExceeded => "max retries exceeded"
  | .retryable e => "retryable error: " ++ e.errString
  | .wrap m _ => m
  | .other m => m

/-- Go `errors.Is err target` for the sentinel targets used by the worker:
compare at each level of the unwrap chain (`RetryableError.Unwrap` and
`fmt.Errorf`-with-`%w` wrappers expose their inner error). -/
def errorsIs : GoError → GoError → Bool
  | .retryable inner, t => (GoError.retryable inner == t) || errorsIs inner t
  | .wrap m inner, t => (GoError.wrap m inner == t) || errorsIs inner t
  | e, t => e == t

/-- Go `errors.As err &target` for `target : *domain.RetryableError`:
some member of the unwrap chain is a `RetryableError`. -/
def asRetryable : GoError → Bool
  | .retryable _ => true
  | .wrap _ inner => asRetryable inner
  | _ => false

/-- `shouldRequeueJob` from `internal/worker/pool.go`: the pool's requeue
decision for a NACK. -/
def shouldRequeueJob (err : GoError) : Bool :=
  if errorsIs err GoError.errJobAlreadyClaimed then false
  else if errorsIs err GoError.errMaxRetriesExceeded then false
  else if errorsIs err GoError.errInvalidPayload then false
  else if asRetryable err then true
  else false

/-- Rewrites every message string of an error while keeping its category
structure; used to state that the requeue decision ignores messages. -/
def relabelMsgs (f : String → String) : GoError → GoError
  | .retryable e => .retryable (relabelMsgs f e)
  | .wrap m e => .wrap (f m) (relabelMsgs f e)
  | .other m => .other (f m)
  | e => e

theorem relabelMsgs_asRetryable (f : String → String) (e : GoError) :
    asRetryable (relabelMsgs f e) = asRetryable e := by
  induction e with
  | retryable inner ih => simp [relabelMsgs, asRetryable]
  | wrap m inner ih => simpa [relabelMsgs, asRetryable] using ih
  | other m => simp [relabelMsgs, asRetryable]
  | errJobNotFound => simp [relabelMsgs, asRetryable]
  | errJobAlreadyClaimed => simp [relabelMsgs, asRetryable]
  | errInvalidPayload => simp [relabelMsgs, asRetryable]
  | errMaxRetriesExceeded => simp [relabelMsgs, asRetryable]

/-- A sentinel error of the domain package (built by `errors.New`). -/
def GoError.isSentinel : GoError → Bool
  | .errJobNotFound => true
  | .errJobAlreadyClaimed => true
  | .errInvalidPayload => true
  | .errMaxRetriesExceeded => true
  | _ => false

theorem relabelMsgs_errorsIs (f : String → String) (e t : GoError)
    (ht : t.isSentinel = true) : errorsIs (relabelMsgs f e) t = errorsIs e t := by
  induction e with
  | retryable inner ih =>
      cases t <;> simp [GoError.isSentinel] at ht <;>
        simp only [relabelMsgs, errorsIs, ih] <;> rfl
  | wrap m inner ih =>
      cases t <;> simp [GoError.isSentinel] at ht <;>
        simp only [relabelMsgs, errorsIs, ih] <;> rfl
  | other m =>
      cases t <;> simp [GoError.isSentinel] at ht <;>
        simp only [relabelMsgs, errorsIs] <;> rfl
  | errJobNotFound => simp [relabelMsgs]
  | errJobAlreadyClaimed => simp [relabelMsgs]
  | errInvalidPayload => simp [relabelMsgs]
  | errMaxRetriesExceeded => simp [relabelMsgs]

theorem relabelMsgs_shouldRequeueJob (f : String → String) (e : GoError) :
    shouldRequeueJob (relabelMsgs f e) = shouldRequeueJob e := by
  unfold shouldRequeueJob
  rw [relabelMsgs_errorsIs f e GoError.errJobAlreadyClaimed rfl,
    relabelMsgs_errorsIs f e GoError.errMaxRetriesExceeded rfl,
    relabelMsgs_errorsIs f e GoError.errInvalidPayload rfl,
    relabelMsgs_asRetryable]

theorem shouldRequeueJob_of_not_retryable (e : GoError)
    (h : asRetryable e = false) : shouldRequeueJob e = false := by
  simp [shouldRequeueJob, h]

/-- Job status constants from `internal/worker/domain` (PENDING, RUNNING,
COMPLETED, FAILED, CANCELED). -/
inductive JobStatus where
  | pending
  | running
  | completed
  | failed
  | canceled
deriving DecidableEq, Repr

/-- The `domain.Job` struct handed to the executor after a claim. -/
structure Job where
  jobID : String
  jobType : String
  payload : String
  status : JobStatus
  workerID : String
  retryCount : Int
  maxRetries : Int
  timeoutSeconds : Int
deriving DecidableEq, Repr

/-- A row of the `jobs` table, restricted to the columns the worker reads or
writes. Timestamps are integers (nanoseconds since the epoch); `NOW()` is
passed in explicitly as `now`. -/
structure JobRow where
  jobID : String
  jobType : String
  payload : String
  status : JobStatus
  workerID : Option String
  retryCount : Int
  maxRetries : Int
  timeoutSeconds : Int
  result : Option Doc
  errorMessage : String
  updatedAt : Int
  startedAt : Option Int
  completedAt : Option Int
  lastHeartbeatAt : Option Int
deriving DecidableEq, Repr

/-- The jobs table: a list of rows. -/
abbrev DB := List JobRow

/-- The WHERE clause of the claim UPDATE: `job_id = $3 AND status = 'PENDING'`. -/
def claimMatches (jobID : String) (r : JobRow) : Bool :=
  r.jobID == jobID && r.status == JobStatus.pending

/-- The SET clause of the claim UPDATE: the one statement simultaneously sets
status, worker_id, started_at, last_heartbeat_at and updated_at. -/
def claimUpdateRow (workerID : String) (now : Int) (r : JobRow) : JobRow :=
  { r with
    status := JobStatus.running
    workerID := some workerID
    startedAt := some now
    lastHeartbeatAt := some now
    updatedAt := now }

/-- The `domain.Job` value built from the RETURNING columns plus the two
fields `ClaimJob` fills in afterwards (`job.Status = RUNNING`,
`job.WorkerID = workerID`). -/
def claimedJob (r : JobRow) (workerID : String) : Job :=
  { jobID := r.jobID
    jobType := r.jobType
    payload := r.payload
    status := JobStatus.running
    workerID := workerID
    retryCount := r.retryCount
    maxRetries := r.maxRetries
    timeoutSeconds := r.timeoutSeconds }

/-- `Storage.ClaimJob`: conditional UPDATE with RETURNING. All rows matching
the WHERE clause are updated; `QueryRow(...).Scan` reads the first returned
row and yields `sql.ErrNoRows` (mapped to `domain.ErrJobAlreadyClaimed`)
when no row matched, in which case nothing was written. -/
def ClaimJob (db : DB) (jobID workerID : String) (now : Int) :
    DB × Except GoError Job :=
  match (List.filter (claimMatches jobID) db) with
  | [] => (db, Except.error GoError.errJobAlreadyClaimed)
  | r :: _ =>
      (List.map
        (fun r => if claimMatches jobID r then claimUpdateRow workerID now r else r) db,
       Except.ok (claimedJob r workerID))

/-- The SET clause of `Storage.UpdateJobStatus`: status, result and
error_message are set unconditionally; completed_at becomes `NOW()` when the
new status is COMPLETED or FAILED and NULL otherwise. -/
def updateJobStatusRow (status : JobStatus) (result : Option Doc)
    (errorMsg : String) (now : Int) (r : JobRow) : JobRow :=
  { r with
    status := status
    result := result
    errorMessage := errorMsg
    completedAt :=
      if status == JobStatus.completed || status == JobStatus.failed then some now
      else none
    updatedAt := now }

/-- `Storage.UpdateJobStatus`: the UPDATE filters on `job_id = $6` only —
there is no status condition in the WHERE clause. -/
def UpdateJobStatus (db : DB) (jobID : String) (status : JobStatus)
    (result : Option Doc) (errorMsg : String) (now : Int) : DB :=
  List.map
    (fun r => if r.jobID == jobID then updateJobStatusRow status result errorMsg now r else r)
    db

/-- `Storage.UpdateJobHeartbeat`: refresh last_heartbeat_at and updated_at,
guarded by `WHERE job_id = $1 AND status = 'RUNNING'`. -/
def UpdateJobHeartbeat (db : DB) (jobID : String) (now : Int) : DB :=
  List.map
    (fun r =>
      if r.jobID == jobID && r.status == JobStatus.running then
        { r with lastHeartbeatAt := some now, updatedAt := now }
      else r)
    db

/-- Storage and handler calls issued by one `processJob` run, in order. -/
inductive ExecEvent where
  | claimCall (jobID workerID : String)
  | execCall (jobID : String) (payload : Doc)
  | updateStatusCall (jobID : String) (status : JobStatus) (result : Option Doc)
      (errorMsg : String)
deriving DecidableEq, Repr

/-- Outcomes of the external calls one `processJob` run performs.
`claimResult` is what `storage.ClaimJob` returned; `decode` is
`json.Unmarshal` on a payload text (`Except.error` carries the json error
message); `handlerResult` is the `(result, err)` pair from `executeJob`;
`updateStatusResult` is the outcome of the `UpdateJobStatus` call of this
run (the executor only logs it). -/
structure ExecEnv where
  claimResult : Except GoError Job
  decode : String → Except String Doc
  handlerResult : Except GoError Doc
  updateStatusResult : Option GoError

/-- Steps 5-6 of `processJob`: run `executeJob` on the decoded payload and
persist the terminal status. On handler failure the FAILED update happens
first; the returned error is `NewRetryableError(fmt.Errorf("job execution
failed: %w", err))` when `RetryCount < MaxRetries` and
`fmt.Errorf("%w: %v", ErrMaxRetriesExceeded, err)` otherwise. On success the
COMPLETED update carries the result and an empty error message, and any
failure of that update is logged only — the function still returns nil. -/
def finishJob (env : ExecEnv) (job : Job) (payload : Doc)
    (msgJobID workerID : String) : List ExecEvent × Option GoError :=
  match env.handlerResult with
  | Except.error e =>
      ([ExecEvent.claimCall msgJobID workerID,
        ExecEvent.execCall job.jobID payload,
        ExecEvent.updateStatusCall job.jobID JobStatus.failed none e.errString],
       if job.retryCount < job.maxRetries then
         some (GoError.retryable (GoError.wrap ("job execution failed: " ++ e.errString) e))
       else
         some (GoError.wrap ("max retries exceeded: " ++ e.errString)
           GoError.errMaxRetriesExceeded))
  | Except.ok result =>
      ([ExecEvent.claimCall msgJobID workerID,
        ExecEvent.execCall job.jobID payload,
        ExecEvent.updateStatusCall job.jobID JobStatus.completed (some result) ""],
       none)

/-- `Worker.processJob`: claim, parse the payload, execute, finalize. The
first component lists the storage/handler calls in program order; the second
is the returned error (`none` = nil = ACK). -/
def processJob (env : ExecEnv) (msgJobID workerID : String) :
    List ExecEvent × Option GoError :=
  match env.claimResult with
  | Except.error e =>
      if errorsIs e GoError.errJobAlreadyClaimed then
        ([ExecEvent.claimCall msgJobID workerID],
         some (GoError.wrap ("job already claimed: " ++ e.errString) e))
      else
        ([ExecEvent.claimCall msgJobID workerID],
         some (GoError.wrap ("failed to claim job: " ++ e.errString) e))
  | Except.ok job =>
      if job.payload = "" then
        finishJob env job [] msgJobID workerID
      else
        match env.decode job.payload with
        | Except.error emsg =>
            ([ExecEvent.claimCall msgJobID workerID,
              ExecEvent.updateStatusCall job.jobID JobStatus.failed none
                ("Invalid payload JSON: " ++ emsg)],
             some (GoError.wrap (GoError.errInvalidPayload.errString ++ ": " ++ emsg)
               GoError.errInvalidPayload))
        | Except.ok d => finishJob env job d msgJobID workerID

/-- `ctx.Err()` values of the `context` package. -/
inductive CtxErr where
  | deadlineExceeded
  | canceled
deriving DecidableEq, Repr

def ctxErrString : CtxErr → String
  | CtxErr.deadlineExceeded => "context deadline exceeded"
  | CtxErr.canceled => "context canceled"

/-- The current `executeJob` stub: a successful run yields the fixed result
document; a cancelled/timed-out run yields
`fmt.Errorf("job execution canceled: %w", ctx.Err())`. -/
def executeJobResult (ctxe : Option CtxErr) (job : Job) : Except GoError Doc :=
  match ctxe with
  | none =>
      Except.ok
        [("status", "success"),
         ("message", "Job " ++ job.jobID ++ " of type " ++ job.jobType ++ " completed")]
  | some ce =>
      Except.error
        (GoError.wrap ("job execution canceled: " ++ ctxErrString ce)
          (GoError.other (ctxErrString ce)))

/-- How a `storage.ClaimJob` call can fail: `sql.ErrNoRows` (no PENDING row)
or a driver error, which storage wraps as
`fmt.Errorf("failed to claim job: %w", err)`. -/
inductive ClaimFailure where
  | noRows
  | driver (msg : String)
deriving DecidableEq, Repr

def claimResultOf (job : Job) : Option ClaimFailure → Except GoError Job
  | none => Except.ok job
  | some ClaimFailure.noRows => Except.error GoError.errJobAlreadyClaimed
  | some (ClaimFailure.driver m) =>
      Except.error (GoError.wrap ("failed to claim job: " ++ m) (GoError.other m))

/-- The executor environment as the current code can produce it: claim
outcomes as `storage.ClaimJob` shapes them and handler outcomes as the
`executeJob` stub shapes them. -/
def mkStubEnv (job : Job) (cf : Option ClaimFailure)
    (dec : String → Except String Doc) (ctxe : Option CtxErr)
    (upd : Option GoError) : ExecEnv :=
  { claimResult := claimResultOf job cf
    decode := dec
    handlerResult := executeJobResult ctxe job
    updateStatusResult := upd }

/-- A work item as handed to a pool agent. -/
structure JobMessage where
  jobID : String
  deliveryTag : Nat
deriving DecidableEq, Repr

/-- Events observable from one pool-agent loop iteration. -/
inductive LoopEvent where
  | storage (ev : ExecEvent)
  | ack (tag : Nat)
  | nack (tag : Nat) (requeue : Bool)
deriving DecidableEq, Repr

def LoopEvent.isAckNack : LoopEvent → Bool
  | LoopEvent.ack _ => true
  | LoopEvent.nack _ _ => true
  | LoopEvent.storage _ => false

def LoopEvent.tagOf : LoopEvent → Option Nat
  | LoopEvent.ack t => some t
  | LoopEvent.nack t _ => some t
  | LoopEvent.storage _ => none

/-- One agent's view of the world for one work item: the executor
environment plus whether `rabbitClient.GetChannel()` returns a channel. -/
structure LoopEnv where
  exec : ExecEnv
  channelAvailable : Bool

/-- One iteration of `workerLoop` for a received work item: run
`processJob`; then fetch the channel — if it is nil, skip (no ack and no
nack); otherwise NACK with `shouldRequeueJob err` on error or ACK on
success. Ack/Nack transport errors are logged and do not change the event. -/
def workerIteration (env : LoopEnv) (workerID : String) (msg : JobMessage) :
    List LoopEvent :=
  let res := processJob env.exec msg.jobID workerID
  let pre := List.map LoopEvent.storage res.1
  if env.channelAvailable then
    match res.2 with
    | none => pre ++ [LoopEvent.ack msg.deliveryTag]
    | some e => pre ++ [LoopEvent.nack msg.deliveryTag (shouldRequeueJob e)]
  else pre

/-- The agent loop processes work items strictly one after another. -/
def workerRun (workerID : String) : List (LoopEnv × JobMessage) → List LoopEvent
  | [] => []
  | (env, msg) :: rest => workerIteration env workerID msg ++ workerRun workerID rest

/-- `WorkerConfig` from `internal/config/config.go` (durations in seconds). -/
structure WorkerConfig where
  concurrency : Int
  maxJobs : Int
  jobTimeoutSeconds : Int
  heartbeatIntervalSeconds : Int
  shutdownTimeoutSeconds : Int
deriving DecidableEq, Repr

/-- The ticker period used by `sendJobHeartbeat`, as a function of the
loaded worker configuration. `worker.NewWorker` copies Concurrency,
JobTimeout, ShutdownTimeout, PrefetchCount and the queue name but no
heartbeat interval, and `sendJobHeartbeat` builds its ticker as
`time.NewTicker(30 * time.Second)`, so the configured
`heartbeat_interval` never reaches the loop. -/
def sendJobHeartbeatTickerSeconds (cfg : WorkerConfig) : Int := 30

/-- Byte value of the base64 standard-alphabet character for a 6-bit group. -/
def b64CharCode (n : Nat) : Nat :=
  if n < 26 then 65 + n
  else if n < 52 then 97 + (n - 26)
  else if n < 62 then 48 + (n - 52)
  else if n = 62 then 43
  else 47

/-- Inverse alphabet lookup: the 6-bit value of a base64 character byte. -/
def b64IndexOf (c : Nat) : Option Nat :=
  if 65 ≤ c ∧ c ≤ 90 then some (c - 65)
  else if 97 ≤ c ∧ c ≤ 122 then some (26 + (c - 97))
  else if 48 ≤ c ∧ c ≤ 57 then some (52 + (c - 48))
  else if c = 43 then some 62
  else if c = 47 then some 63
  else none

/-- `base64.StdEncoding.EncodeToString` on a byte list (bytes < 256), three
input bytes per four output characters, with `=` (byte 61) padding. -/
def b64encode : List Nat → List Nat
  | [] => []
  | [a] => [b64CharCode (a / 4), b64CharCode (a % 4 * 16), 61, 61]
  | [a, b] =>
      [b64CharCode (a / 4), b64CharCode (a % 4 * 16 + b / 16),
       b64CharCode (b % 16 * 4), 61]
  | a :: b :: c :: rest =>
      b64CharCode (a / 4) :: b64CharCode (a % 4 * 16 + b / 16) ::
      b64CharCode (b % 16 * 4 + c / 64) :: b64CharCode (c % 64) :: b64encode rest

/-- `base64.StdEncoding.DecodeString`: four characters per block, padding
only in a final block, `none` on any malformed input. -/
def b64decode : List Nat → Option (List Nat)
  | [] => some []
  | c1 :: c2 :: c3 :: c4 :: rest =>
      match b64IndexOf c1, b64IndexOf c2 with
      | some i1, some i2 =>
          if c3 = 61 ∧ c4 = 61 ∧ rest = [] then
            some [i1 * 4 + i2 / 16]
          else if c4 = 61 ∧ rest = [] then
            match b64IndexOf c3 with
            | some i3 => some [i1 * 4 + i2 / 16, i2 % 16 * 16 + i3 / 4]
            | none => none
          else
            match b64IndexOf c3, b64IndexOf c4 with
            | some i3, some i4 =>
                match b64decode rest with
                | some tail =>
                    some ((i1 * 4 + i2 / 16) :: (i2 % 16 * 16 + i3 / 4) ::
                      (i3 % 4 * 64 + i4) :: tail)
                | none => none
            | _, _ => none
      | _, _ => none
  | _ => none

/-- `strings.Split` on a single separator byte. -/
def splitOnByte (sep : Nat) : List Nat → List (List Nat)
  | [] => [[]]
  | b :: rest =>
      if b = sep then [] :: splitOnByte sep rest
      else
        match splitOnByte sep rest with
        | h :: t => (b :: h) :: t
        | [] => [[b]]

/-- Helper for `natDecimalBytes`; the first argument is recursion fuel and
any fuel above the input is enough. -/
def natDecimalBytesAux : Nat → Nat → List Nat
  | 0, _ => []
  | fuel + 1, n =>
      if n < 10 then [48 + n]
      else natDecimalBytesAux fuel (n / 10) ++ [48 + n % 10]

/-- Decimal digit bytes of a natural number, most significant first
(`fmt.Sprintf` with the `%d` verb). -/
def natDecimalBytes (n : Nat) : List Nat := natDecimalBytesAux (n + 1) n

/-- `fmt.Sprintf` with `%d` on an `int64`: optional minus sign, then digits. -/
def intDecimalBytes : Int → List Nat
  | Int.ofNat n => natDecimalBytes n
  | Int.negSucc m => 45 :: natDecimalBytes (m + 1)

def isDigitByte (b : Nat) : Bool := 48 ≤ b && b ≤ 57

/-- Longest digit run at the head of the input, and the remainder. -/
def takeDigits : List Nat → List Nat × List Nat
  | [] => ([], [])
  | b :: rest =>
      if isDigitByte b then
        ((b :: (takeDigits rest).1), (takeDigits rest).2)
      else ([], b :: rest)

def digitsVal (ds : List Nat) : Nat :=
  List.foldl (fun acc d => acc * 10 + (d - 48)) 0 ds

/-- `fmt.Sscanf` with a single `%d` verb into an `int64`: skip leading
whitespace, an optional sign, then at least one decimal digit; input after
the digit run is ignored. -/
def parseIntBytes (s : List Nat) : Option Int :=
  match List.dropWhile (fun b => b = 32 || b = 9 || b = 10 || b = 13) s with
  | [] => none
  | b :: rest =>
      if b = 45 then
        if (takeDigits rest).1 = [] then none
        else some (-((digitsVal (takeDigits rest).1 : Nat) : Int))
      else if b = 43 then
        if (takeDigits rest).1 = [] then none
        else some ((digitsVal (takeDigits rest).1 : Nat) : Int)
      else
        if (takeDigits (b :: rest)).1 = [] then none
        else some ((digitsVal (takeDigits (b :: rest)).1 : Nat) : Int)

/-- `storage.JobCursor`: a creation timestamp (nanoseconds, the precision of
`UnixNano` / `time.Unix(0, ns)`) and a job id, as a Go byte string. -/
structure JobCursor where
  createdAt : Int
  jobID : List Nat
deriving DecidableEq, Repr

/-- `EncodeJobCursor`: base64 of `fmt.Sprintf("%d|%s", CreatedAt.UnixNano(),
JobID)` (byte 124 is the bar separator). -/
def EncodeJobCursor (cursor : JobCursor) : List Nat :=
  b64encode (intDecimalBytes cursor.createdAt ++ 124 :: cursor.jobID)

/-- `DecodeJobCursor`: the empty cursor decodes to no cursor and no error;
otherwise base64-decode, split on the bar, require exactly two parts, scan
the first as `%d`, and rebuild the cursor with `time.Unix(0, createdAt)`. -/
def DecodeJobCursor (cursorStr : List Nat) : Except String (Option JobCursor) :=
  if cursorStr = [] then Except.ok none
  else
    match b64decode cursorStr with
    | none => Except.error "illegal base64 data"
    | some decoded =>
        match splitOnByte 124 decoded with
        | [p0, p1] =>
            match parseIntBytes p0 with
            | none => Except.error "invalid createdAt in cursor"
            | some n => Except.ok (some { createdAt := n, jobID := p1 })
        | _ => Except.error "invalid cursor format"

theorem head?_filter_eq_find? {α : Type} (p : α → Bool) (l : List α) :
    (List.filter p l).head? = List.find? p l := by
  induction l with
  | nil => rfl
  | cons a l ih =>
      by_cases h : p a <;> simp [List.filter_cons, List.find?_cons, h, ih]

theorem map_eq_self_of {α : Type} (f : α → α) (l : List α)
    (h : ∀ a ∈ l, f a = a) : List.map f l = l := by
  induction l with
  | nil => rfl
  | cons a l ih =>
      simp only [List.map_cons, h a (by simp)]
      rw [ih (fun b hb => h b (by simp [hb]))]

/-- C1: `ClaimJob` is the one conditional UPDATE: it returns a row exactly
when a PENDING row with the given job id exists; the returned job is that
row claimed as RUNNING by the given worker; on zero matching rows it
returns `ErrJobAlreadyClaimed` and leaves the table untouched; and the new
table rewrites exactly the matching rows with status RUNNING, worker_id,
started_at, last_heartbeat_at and updated_at set in the same statement. -/
theorem claim_C1_claimJob_conditional_update (db : DB) (jobID workerID : String)
    (now : Int) :
    (ClaimJob db jobID workerID now).2 =
      Option.elim (List.find? (claimMatches jobID) db)
        (Except.error GoError.errJobAlreadyClaimed)
        (fun r => Except.ok (claimedJob r workerID))
  ∧ (List.find? (claimMatches jobID) db = none →
      ClaimJob db jobID workerID now = (db, Except.error GoError.errJobAlreadyClaimed))
  ∧ (ClaimJob db jobID workerID now).1 =
      List.map
        (fun r => if claimMatches jobID r then claimUpdateRow workerID now r else r) db := by
  refine ⟨?_, ?_, ?_⟩
  · rcases hf : List.filter (claimMatches jobID) db with _ | ⟨r, rest⟩
    · have hfind : List.find? (claimMatches jobID) db = none := by
        rw [← head?_filter_eq_find?, hf]; rfl
      simp [ClaimJob, hf, hfind]
    · have hfind : List.find? (claimMatches jobID) db = some r := by
        rw [← head?_filter_eq_find?, hf]; rfl
      simp [ClaimJob, hf, hfind]
  · intro hfind
    have hf : List.filter (claimMatches jobID) db = [] := by
      have := head?_filter_eq_find? (claimMatches jobID) db
      rw [hfind] at this
      exact List.head?_eq_none_iff.mp this
    simp [ClaimJob, hf]
  · rcases hf : List.filter (claimMatches jobID) db with _ | ⟨r, rest⟩
    · have hall : ∀ a ∈ db, claimMatches jobID a = false := by
        intro a ha
        have := List.filter_eq_nil_iff.mp hf a ha
        simpa using this
      have : List.map
          (fun r => if claimMatches jobID r then claimUpdateRow workerID now r else r) db
          = db :=
        map_eq_self_of _ _ (fun a ha => by simp [hall a ha])
      simp [ClaimJob, hf, this]
    · simp [ClaimJob, hf]

/-- Concrete witness row: a PENDING job j1. -/
def c1row : JobRow :=
  { jobID := "j1", jobType := "email", payload := "", status := JobStatus.pending,
    workerID := none, retryCount := 0, maxRetries := 3, timeoutSeconds := 0,
    result := none, errorMessage := "", updatedAt := 0, startedAt := none,
    completedAt := none, lastHeartbeatAt := none }

theorem claim_C1_witness :
    ClaimJob [{ c1row with status := JobStatus.canceled }] "j1" "w1" 5 =
      ([{ c1row with status := JobStatus.canceled }],
       Except.error GoError.errJobAlreadyClaimed) :=
  (claim_C1_claimJob_conditional_update
    [{ c1row with status := JobStatus.canceled }] "j1" "w1" 5).2.1 (by decide)

theorem all_map_of {α β : Type} (f : α → β) (q : β → Bool) (l : List α)
    (h : ∀ a, q (f a) = true) : List.all (List.map f l) q = true := by
  induction l with
  | nil => rfl
  | cons a l ih => rw [List.map_cons, List.all_cons, h a, ih]; rfl

theorem all_zip_map_of {α : Type} (f : α → α) (q : α × α → Bool) (l : List α)
    (h : ∀ a, q (a, f a) = true) : List.all (List.zip l (List.map f l)) q = true := by
  induction l with
  | nil => rfl
  | cons a l ih => rw [List.map_cons, List.zip_cons_cons, List.all_cons, h a, ih]; rfl

/-- C7 counterexample: the finalize write has no status guard, so a job row
that was CANCELED while running is overwritten to COMPLETED by
`UpdateJobStatus` — the claim that terminal states are never overwritten by
a worker write fails. -/
theorem claim_C7_counterexample :
    List.map JobRow.status
      (UpdateJobStatus [{ c1row with status := JobStatus.canceled }] "j1"
        JobStatus.completed (some [("status", "success")]) "" 9)
      = [JobStatus.completed]
  ∧ JobStatus.canceled ≠ JobStatus.completed := by decide

/-- C7 amended: `UpdateJobStatus` matches on job_id alone and overwrites
whatever status the row currently holds (in particular a CANCELED row seen
at finalize time is overwritten); rows of other jobs are untouched; the
heartbeat UPDATE never changes a status and touches only rows of the given
job that are still RUNNING. -/
theorem claim_C7_amended_updateJobStatus_unguarded (db : DB) (jobID : String)
    (st : JobStatus) (res : Option Doc) (msg : String) (now : Int) :
    List.all (UpdateJobStatus db jobID st res msg now)
      (fun r => !(r.jobID == jobID) || (r.status == st)) = true
  ∧ List.all (List.zip db (UpdateJobStatus db jobID st res msg now))
      (fun p => (p.1.jobID == jobID) || (p.1 == p.2)) = true
  ∧ List.all (List.zip db (UpdateJobHeartbeat db jobID now))
      (fun p => p.1.status == p.2.status) = true
  ∧ List.all (List.zip db (UpdateJobHeartbeat db jobID now))
      (fun p => (p.1.jobID == jobID && p.1.status == JobStatus.running) || (p.1 == p.2))
      = true := by
  refine ⟨?_, ?_, ?_, ?_⟩
  · simp only [UpdateJobStatus]
    exact all_map_of _ _ db (fun a => by
      cases ha : a.jobID == jobID <;> simp [updateJobStatusRow, ha])
  · simp only [UpdateJobStatus]
    exact all_zip_map_of _ _ db (fun a => by
      cases ha : a.jobID == jobID <;> simp [ha])
  · simp only [UpdateJobHeartbeat]
    exact all_zip_map_of _ _ db (fun a => by
      cases ha : a.jobID == jobID && a.status == JobStatus.running <;> simp [ha])
  · simp only [UpdateJobHeartbeat]
    exact all_zip_map_of _ _ db (fun a => by
      cases ha : a.jobID == jobID && a.status == JobStatus.running <;> simp [ha])

/-- The sample worker configuration used to exhibit the heartbeat bug. -/
def c9cfg : WorkerConfig :=
  { concurrency := 4, maxJobs := 0, jobTimeoutSeconds := 60,
    heartbeatIntervalSeconds := 10, shutdownTimeoutSeconds := 30 }

/-- C9: with `heartbeat_interval` configured to 10 seconds the heartbeat
loop still ticks every 30 seconds — `sendJobHeartbeat` hard-codes
`time.NewTicker(30 * time.Second)` against its own comment ("Use heartbeat
interval from config") and against the config validation that requires
`heartbeat_interval > 0`. -/
theorem claim_C9_heartbeat_interval_hardcoded :
    sendJobHeartbeatTickerSeconds c9cfg = 30
  ∧ sendJobHeartbeatTickerSeconds c9cfg ≠ c9cfg.heartbeatIntervalSeconds := by
  exact ⟨rfl, by decide⟩

theorem retryable_beq_sentinel (z t : GoError) (ht : t.isSentinel = true) :
    (GoError.retryable z == t) = false := by
  cases t <;> first | rfl | simp [GoError.isSentinel] at ht

theorem wrap_beq_sentinel (s : String) (z t : GoError) (ht : t.isSentinel = true) :
    (GoError.wrap s z == t) = false := by
  cases t <;> first | rfl | simp [GoError.isSentinel] at ht

theorem other_beq_sentinel (s : String) (t : GoError) (ht : t.isSentinel = true) :
    (GoError.other s == t) = false := by
  cases t <;> first | rfl | simp [GoError.isSentinel] at ht

theorem shouldRequeueJob_wrap (s : String) (z : GoError) :
    shouldRequeueJob (GoError.wrap s z) = shouldRequeueJob z := rfl

theorem asRetryable_wrap (s : String) (z : GoError) :
    asRetryable (GoError.wrap s z) = asRetryable z := rfl

/-- The PENDING job used in the executor witnesses. -/
def c2job : Job :=
  { jobID := "j2", jobType := "email", payload := "", status := JobStatus.pending,
    workerID := "", retryCount := 0, maxRetries := 3, timeoutSeconds := 0 }

/-- C2 counterexample: a claim attempt that fails with a driver error (not
the zero-row case) makes `processJob` return an error that is not
Retryable-classified, and the pool decides requeue = false — the claimed
requeue = true does not happen. -/
theorem claim_C2_counterexample :
    ((processJob (mkStubEnv c2job (some (ClaimFailure.driver "connection refused"))
        (fun _ => Except.ok []) none none) "j2" "w1").2.map asRetryable = some false)
  ∧ ((processJob (mkStubEnv c2job (some (ClaimFailure.driver "connection refused"))
        (fun _ => Except.ok []) none none) "j2" "w1").2.map shouldRequeueJob
        = some false) := by
  exact ⟨rfl, rfl⟩

/-- C2 amended: a claim attempt that fails with a driver error other than
the zero-row case makes `processJob` return the error wrapped as
`failed to claim job: ...` with no Retryable classification, so the pool
nacks with requeue = false (the fail-closed default), and no further
storage call is made. -/
theorem claim_C2_amended_db_error_no_requeue (env : ExecEnv) (e : GoError)
    (m w : String)
    (hc : env.claimResult = Except.error e)
    (hnac : errorsIs e GoError.errJobAlreadyClaimed = false)
    (hnr : asRetryable e = false) :
    (processJob env m w).2
      = some (GoError.wrap ("failed to claim job: " ++ e.errString) e)
  ∧ (processJob env m w).2.map shouldRequeueJob = some false
  ∧ (processJob env m w).1 = [ExecEvent.claimCall m w] := by
  have h1 : processJob env m w =
      ([ExecEvent.claimCall m w],
       some (GoError.wrap ("failed to claim job: " ++ e.errString) e)) := by
    simp [processJob, hc, hnac]
  refine ⟨by rw [h1], ?_, by rw [h1]⟩
  rw [h1]
  have : shouldRequeueJob (GoError.wrap ("failed to claim job: " ++ e.errString) e)
      = false := by
    rw [shouldRequeueJob_wrap]
    exact shouldRequeueJob_of_not_retryable e hnr
  simp [this]

theorem claim_C2_witness :
    (processJob (mkStubEnv c2job (some (ClaimFailure.driver "boom"))
        (fun _ => Except.ok []) none none) "j2" "w1").2.map shouldRequeueJob
      = some false :=
  (claim_C2_amended_db_error_no_requeue
    (mkStubEnv c2job (some (ClaimFailure.driver "boom"))
      (fun _ => Except.ok []) none none)
    (GoError.wrap ("failed to claim job: " ++ "boom") (GoError.other "boom"))
    "j2" "w1" rfl rfl rfl).2.1

/-- C3: for every outcome the current executor (claim shapes from storage,
handler shapes from the `executeJob` stub) can return, the pool requeues
exactly when the error has a RetryableError in its unwrap chain; relabeling
every message string never changes the decision; an error with no
Retryable in its chain — the three sentinel categories and any unclassified
error included — is never requeued; and the agent's nack carries exactly
this decision for the item's delivery tag. -/
theorem claim_C3_requeue_decision (job : Job) (cf : Option ClaimFailure)
    (dec : String → Except String Doc) (ctxe : Option CtxErr)
    (upd : Option GoError) (m w : String) (tag : Nat) (e2 : GoError)
    (f : String → String) :
    Option.all (fun o => shouldRequeueJob o == asRetryable o)
      (processJob (mkStubEnv job cf dec ctxe upd) m w).2 = true
  ∧ shouldRequeueJob (relabelMsgs f e2) = shouldRequeueJob e2
  ∧ (asRetryable e2 = false → shouldRequeueJob e2 = false)
  ∧ (workerIteration { exec := mkStubEnv job cf dec ctxe upd, channelAvailable := true }
        w { jobID := m, deliveryTag := tag }).getLast? =
      some (match (processJob (mkStubEnv job cf dec ctxe upd) m w).2 with
            | none => LoopEvent.ack tag
            | some e => LoopEvent.nack tag (shouldRequeueJob e)) := by
  refine ⟨?_, relabelMsgs_shouldRequeueJob f e2, shouldRequeueJob_of_not_retryable e2, ?_⟩
  · rcases cf with _ | cf
    · by_cases hp : job.payload = ""
      · rcases ctxe with _ | ce
        · simp [processJob, mkStubEnv, claimResultOf, finishJob, executeJobResult, hp]
        · by_cases hr : job.retryCount < job.maxRetries <;>
            simp [processJob, mkStubEnv, claimResultOf, finishJob, executeJobResult,
              hp, hr, shouldRequeueJob, errorsIs, asRetryable,
              retryable_beq_sentinel, wrap_beq_sentinel, other_beq_sentinel]
      · rcases hd : dec job.payload with emsg | d
        · simp [processJob, mkStubEnv, claimResultOf, hp, hd, shouldRequeueJob,
            errorsIs, asRetryable, wrap_beq_sentinel]
        · rcases ctxe with _ | ce
          · simp [processJob, mkStubEnv, claimResultOf, finishJob, executeJobResult,
              hp, hd]
          · by_cases hr : job.retryCount < job.maxRetries <;>
              simp [processJob, mkStubEnv, claimResultOf, finishJob, executeJobResult,
                hp, hd, hr, shouldRequeueJob, errorsIs, asRetryable,
                retryable_beq_sentinel, wrap_beq_sentinel, other_beq_sentinel]
    · rcases cf with _ | msg
      · simp [processJob, mkStubEnv, claimResultOf, shouldRequeueJob, errorsIs,
          asRetryable, wrap_beq_sentinel]
      · simp [processJob, mkStubEnv, claimResultOf, shouldRequeueJob, errorsIs,
          asRetryable, wrap_beq_sentinel, other_beq_sentinel]
  · rcases hres : (processJob (mkStubEnv job cf dec ctxe upd) m w).2 with _ | e
    · simp [workerIteration, hres]
    · simp [workerIteration, hres]

theorem claim_C3_witness :
    Option.all (fun o => shouldRequeueJob o == asRetryable o)
      (processJob (mkStubEnv c2job none (fun _ => Except.ok [])
        (some CtxErr.canceled) none) "j2" "w1").2 = true :=
  (claim_C3_requeue_decision c2job none (fun _ => Except.ok [])
    (some CtxErr.canceled) none "j2" "w1" 7 (GoError.other "x") (fun s => s)).1

theorem processJob_finish_shape (env : ExecEnv) (job : Job) (m w : String)
    (hc : env.claimResult = Except.ok job)
    (hp : job.payload = "" ∨ ∃ d, env.decode job.payload = Except.ok d) :
    ∃ p, processJob env m w = finishJob env job p m w := by
  by_cases hp0 : job.payload = ""
  · exact ⟨[], by simp [processJob, hc, hp0]⟩
  · rcases hp with hp | ⟨d, hd⟩
    · exact absurd hp hp0
    · exact ⟨d, by simp [processJob, hc, hp0, hd]⟩

/-- C4: on handler failure for a claimed job with a parseable payload, the
executor's last storage call persists FAILED carrying the handler's error
text (and that write stamps completed_at); the returned error is the
Retryable wrap exactly when retry_count < max_retries and the
MaxRetriesExceeded wrap otherwise; with max_retries = 0 the first failure
(retry_count = 0) is MaxRetriesExceeded and the pool does not requeue. -/
theorem claim_C4_failure_finalize_retry_decision (env : ExecEnv) (job : Job)
    (e : GoError) (m w : String) (now : Int) (r : JobRow)
    (hc : env.claimResult = Except.ok job)
    (hh : env.handlerResult = Except.error e)
    (hp : job.payload = "" ∨ ∃ d, env.decode job.payload = Except.ok d) :
    (processJob env m w).1.getLast? =
      some (ExecEvent.updateStatusCall job.jobID JobStatus.failed none e.errString)
  ∧ (processJob env m w).2 =
      some (if job.retryCount < job.maxRetries then
              GoError.retryable (GoError.wrap ("job execution failed: " ++ e.errString) e)
            else
              GoError.wrap ("max retries exceeded: " ++ e.errString)
                GoError.errMaxRetriesExceeded)
  ∧ (processJob env m w).2.map asRetryable
      = some (decide (job.retryCount < job.maxRetries))
  ∧ (job.maxRetries = 0 → job.retryCount = 0 →
      (processJob env m w).2 =
        some (GoError.wrap ("max retries exceeded: " ++ e.errString)
          GoError.errMaxRetriesExceeded)
      ∧ (processJob env m w).2.map shouldRequeueJob = some false)
  ∧ (updateJobStatusRow JobStatus.failed none e.errString now r).completedAt = some now
  ∧ (updateJobStatusRow JobStatus.failed none e.errString now r).errorMessage
      = e.errString := by
  obtain ⟨p, hkey⟩ := processJob_finish_shape env job m w hc hp
  refine ⟨?_, ?_, ?_, ?_, rfl, rfl⟩
  · rw [hkey]; simp [finishJob, hh]
  · rw [hkey]
    by_cases hr : job.retryCount < job.maxRetries <;> simp [finishJob, hh, hr]
  · rw [hkey]
    by_cases hr : job.retryCount < job.maxRetries <;>
      simp [finishJob, hh, hr, asRetryable]
  · intro hm0 hr0
    have hr : ¬(job.retryCount < job.maxRetries) := by omega
    constructor
    · rw [hkey]; simp [finishJob, hh, hr]
    · rw [hkey]
      have hfalse : shouldRequeueJob
          (GoError.wrap ("max retries exceeded: " ++ e.errString)
            GoError.errMaxRetriesExceeded) = false := rfl
      simp [finishJob, hh, hr, hfalse]

/-- Failing job for the C4 witness: max_retries = 0. -/
def c4job : Job :=
  { jobID := "j4", jobType := "email", payload := "", status := JobStatus.pending,
    workerID := "", retryCount := 0, maxRetries := 0, timeoutSeconds := 0 }

theorem claim_C4_witness :
    (processJob (mkStubEnv c4job none (fun _ => Except.ok [])
        (some CtxErr.canceled) none) "j4" "w1").2.map shouldRequeueJob
      = some false :=
  ((claim_C4_failure_finalize_retry_decision
      (mkStubEnv c4job none (fun _ => Except.ok []) (some CtxErr.canceled) none)
      c4job
      (GoError.wrap ("job execution canceled: " ++ "context canceled")
        (GoError.other "context canceled"))
      "j4" "w1" 0 c1row rfl (by decide) (Or.inl rfl)).2.2.2.1 rfl rfl).2

def ExecEvent.isExecCall : ExecEvent → Bool
  | ExecEvent.execCall _ _ => true
  | _ => false

/-- C5: after a successful claim, an empty payload skips decoding entirely
(the run does not depend on the decoder) and invokes the handler with the
empty document, producing no InvalidPayload error (given that the handler
does not itself wrap that sentinel); a non-empty payload that fails to
decode makes the executor best-effort write FAILED with a message starting
"Invalid payload", return the InvalidPayload-wrapped error without ever
invoking the handler, and the pool does not requeue. -/
theorem claim_C5_payload_parsing (env : ExecEnv) (job : Job)
    (dec2 : String → Except String Doc) (emsg : String) (m w : String)
    (hc : env.claimResult = Except.ok job) :
    (job.payload = "" →
      processJob { env with decode := dec2 } m w = processJob env m w
      ∧ ExecEvent.execCall job.jobID [] ∈ (processJob env m w).1
      ∧ ((∀ e, env.handlerResult = Except.error e →
            errorsIs e GoError.errInvalidPayload = false) →
          (processJob env m w).2.map (fun o => errorsIs o GoError.errInvalidPayload)
            ≠ some true))
  ∧ (job.payload ≠ "" → env.decode job.payload = Except.error emsg →
      (processJob env m w).1 =
        [ExecEvent.claimCall m w,
         ExecEvent.updateStatusCall job.jobID JobStatus.failed none
           ("Invalid payload JSON: " ++ emsg)]
      ∧ List.isPrefixOf "Invalid payload".data
          ("Invalid payload JSON: " ++ emsg).data = true
      ∧ (processJob env m w).2 =
          some (GoError.wrap ("invalid job payload: " ++ emsg)
            GoError.errInvalidPayload)
      ∧ (processJob env m w).2.map shouldRequeueJob = some false
      ∧ List.all (processJob env m w).1 (fun ev => !ev.isExecCall) = true) := by
  constructor
  · intro hp
    refine ⟨?_, ?_, ?_⟩
    · rcases hh : env.handlerResult with e | r <;>
        simp [processJob, finishJob, hc, hp, hh]
    · rcases hh : env.handlerResult with e | r <;>
        simp [processJob, finishJob, hc, hp, hh]
    · intro hnf
      rcases hh : env.handlerResult with e | r
      · have hei : errorsIs e GoError.errInvalidPayload = false := hnf e hh
        by_cases hr : job.retryCount < job.maxRetries <;>
          simp [processJob, finishJob, hc, hp, hh, hr, errorsIs,
            retryable_beq_sentinel, wrap_beq_sentinel, hei]
      · simp [processJob, finishJob, hc, hp, hh]
  · intro hpn hd
    have hkey : processJob env m w =
        ([ExecEvent.claimCall m w,
          ExecEvent.updateStatusCall job.jobID JobStatus.failed none
            ("Invalid payload JSON: " ++ emsg)],
         some (GoError.wrap (GoError.errInvalidPayload.errString ++ ": " ++ emsg)
           GoError.errInvalidPayload)) := by
      simp [processJob, hc, hpn, hd]
    refine ⟨by rw [hkey], ?_, ?_, ?_, by rw [hkey]; rfl⟩
    · have h1 : "Invalid payload".data ++ " JSON: ".data = "Invalid payload JSON: ".data := by
        decide
      have h2 : ("Invalid payload JSON: " ++ emsg).data
          = "Invalid payload JSON: ".data ++ emsg.data := String.data_append _ _
      rw [List.isPrefixOf_iff_prefix, h2, ← h1, List.append_assoc]
      exact List.prefix_append _ _
    · rw [hkey]; rfl
    · rw [hkey]
      have hfalse : shouldRequeueJob
          (GoError.wrap (GoError.errInvalidPayload.errString ++ ": " ++ emsg)
            GoError.errInvalidPayload) = false := rfl
      simp [hfalse]

/-- Job with a malformed payload for the C5 witness. -/
def c5job : Job :=
  { jobID := "j5", jobType := "email", payload := "\x7bnot json",
    status := JobStatus.pending, workerID := "", retryCount := 0, maxRetries := 3,
    timeoutSeconds := 0 }

theorem claim_C5_witness :
    (processJob (mkStubEnv c5job none
        (fun _ => Except.error "unexpected end of JSON input") none none)
      "j5" "w1").1 =
      [ExecEvent.claimCall "j5" "w1",
       ExecEvent.updateStatusCall "j5" JobStatus.failed none
         ("Invalid payload JSON: " ++ "unexpected end of JSON input")] :=
  ((claim_C5_payload_parsing
      (mkStubEnv c5job none (fun _ => Except.error "unexpected end of JSON input")
        none none)
      c5job (fun _ => Except.ok []) "unexpected end of JSON input" "j5" "w1"
      rfl).2 (by decide) rfl).1

theorem processJob_ignores_updateStatusResult (env : ExecEnv) (u : Option GoError)
    (m w : String) :
    processJob { env with updateStatusResult := u } m w = processJob env m w := by
  rcases hcr : env.claimResult with e | job
  · simp [processJob, hcr]
  · by_cases hp0 : job.payload = ""
    · rcases hh : env.handlerResult with e | r <;>
        simp [processJob, finishJob, hcr, hp0, hh]
    · rcases hd : env.decode job.payload with emsg | d
      · simp [processJob, hcr, hp0, hd]
      · rcases hh : env.handlerResult with e | r <;>
          simp [processJob, finishJob, hcr, hp0, hd, hh]

/-- C6: on handler success the executor's last storage call persists
COMPLETED with the result document and an empty error message (that write
also stamps completed_at and clears error_message on the row), the run
returns nil regardless of whether that persistence call failed, and the
agent then acks the delivery tag. -/
theorem claim_C6_success_finalize_ack (env : ExecEnv) (job : Job) (r : Doc)
    (u : Option GoError) (mrow : JobRow) (m w : String) (tag : Nat) (now : Int)
    (hc : env.claimResult = Except.ok job)
    (hh : env.handlerResult = Except.ok r)
    (hp : job.payload = "" ∨ ∃ d, env.decode job.payload = Except.ok d) :
    (processJob env m w).2 = none
  ∧ (processJob env m w).1.getLast? =
      some (ExecEvent.updateStatusCall job.jobID JobStatus.completed (some r) "")
  ∧ processJob { env with updateStatusResult := u } m w = processJob env m w
  ∧ (workerIteration { exec := env, channelAvailable := true } w
        { jobID := m, deliveryTag := tag }).getLast? = some (LoopEvent.ack tag)
  ∧ (updateJobStatusRow JobStatus.completed (some r) "" now mrow).status
      = JobStatus.completed
  ∧ (updateJobStatusRow JobStatus.completed (some r) "" now mrow).result = some r
  ∧ (updateJobStatusRow JobStatus.completed (some r) "" now mrow).errorMessage = ""
  ∧ (updateJobStatusRow JobStatus.completed (some r) "" now mrow).completedAt
      = some now := by
  obtain ⟨p, hkey⟩ := processJob_finish_shape env job m w hc hp
  have h2 : (processJob env m w).2 = none := by rw [hkey]; simp [finishJob, hh]
  refine ⟨h2, ?_, processJob_ignores_updateStatusResult env u m w, ?_, rfl, rfl, rfl, rfl⟩
  · rw [hkey]; simp [finishJob, hh]
  · simp [workerIteration, h2]

theorem claim_C6_witness :
    (processJob (mkStubEnv c2job none (fun _ => Except.ok []) none
        (some (GoError.other "db write failed"))) "j2" "w1").2 = none :=
  (claim_C6_success_finalize_ack
    (mkStubEnv c2job none (fun _ => Except.ok []) none
      (some (GoError.other "db write failed")))
    c2job
    [("status", "success"),
     ("message", "Job " ++ "j2" ++ " of type " ++ "email" ++ " completed")]
    none c1row "j2" "w1" 3 0 rfl (by decide) (Or.inl rfl)).1

theorem countP_storage_map (tr : List ExecEvent) :
    List.countP LoopEvent.isAckNack (List.map LoopEvent.storage tr) = 0 := by
  induction tr with
  | nil => rfl
  | cons a l ih => simp [List.countP_cons, LoopEvent.isAckNack, ih]

theorem all_storage_not_acknack (tr : List ExecEvent) :
    List.all (List.map LoopEvent.storage tr) (fun ev => !ev.isAckNack) = true :=
  all_map_of _ _ tr (fun _ => rfl)

theorem countP_workerIteration (env : LoopEnv) (w : String) (msg : JobMessage) :
    List.countP LoopEvent.isAckNack (workerIteration env w msg)
      = if env.channelAvailable then 1 else 0 := by
  rcases hch : env.channelAvailable <;>
    rcases hres : (processJob env.exec msg.jobID w).2 with _ | e <;>
      simp [workerIteration, hres, hch, List.countP_append, countP_storage_map,
        List.countP_cons, LoopEvent.isAckNack]

/-- C8 counterexample: when `GetChannel()` yields no channel the work item
is skipped — the executor ran (the claim call is in the trace) but neither
ack nor nack is ever invoked, refuting "exactly one of ack or nack is
invoked for every work item". -/
theorem claim_C8_counterexample :
    List.countP LoopEvent.isAckNack
      (workerIteration
        { exec := mkStubEnv c2job none (fun _ => Except.ok []) none none,
          channelAvailable := false } "w1" { jobID := "j2", deliveryTag := 5 }) = 0
  ∧ LoopEvent.storage (ExecEvent.claimCall "j2" "w1") ∈
      workerIteration
        { exec := mkStubEnv c2job none (fun _ => Except.ok []) none none,
          channelAvailable := false } "w1" { jobID := "j2", deliveryTag := 5 } := by
  exact ⟨rfl, by decide⟩

/-- C8 amended: when a broker channel is available, exactly one ack/nack is
invoked per work item, it carries the item's delivery tag, and it is the
last event of the iteration — strictly after the executor's storage writes
and before the next item is accepted (items are processed sequentially, so
the per-item count over a whole run equals the number of items with an
available channel); when acquiring the channel fails the item is skipped
with no acknowledgment at all. -/
theorem claim_C8_amended_ack_nack (env : LoopEnv) (w : String) (msg : JobMessage)
    (ps : List (LoopEnv × JobMessage)) :
    (env.channelAvailable = true →
      List.countP LoopEvent.isAckNack (workerIteration env w msg) = 1
      ∧ (workerIteration env w msg).getLast?.map LoopEvent.isAckNack = some true
      ∧ (workerIteration env w msg).getLast?.bind LoopEvent.tagOf
          = some msg.deliveryTag
      ∧ List.all (workerIteration env w msg).dropLast (fun ev => !ev.isAckNack)
          = true)
  ∧ (env.channelAvailable = false →
      List.countP LoopEvent.isAckNack (workerIteration env w msg) = 0)
  ∧ List.countP LoopEvent.isAckNack (workerRun w ps)
      = (List.filter (fun p => p.1.channelAvailable) ps).length := by
  refine ⟨?_, ?_, ?_⟩
  · intro hch
    rcases hres : (processJob env.exec msg.jobID w).2 with _ | e <;>
      exact ⟨by simp [countP_workerIteration, hch],
        by simp [workerIteration, hres, hch, List.getLast?_concat, LoopEvent.isAckNack],
        by simp [workerIteration, hres, hch, List.getLast?_concat, LoopEvent.tagOf],
        by simp [workerIteration, hres, hch, List.dropLast_concat, all_storage_not_acknack]⟩
  · intro hch
    simp [countP_workerIteration, hch]
  · induction ps with
    | nil => rfl
    | cons p ps ih =>
        rcases p with ⟨envi, msgi⟩
        rcases hch : envi.channelAvailable <;>
          simp [workerRun, List.countP_append, countP_workerIteration, hch,
            List.filter_cons, ih] <;> omega

theorem claim_C8_witness :
    List.countP LoopEvent.isAckNack
      (workerIteration
        { exec := mkStubEnv c2job none (fun _ => Except.ok []) none none,
          channelAvailable := true } "w1" { jobID := "j2", deliveryTag := 5 }) = 1 :=
  ((claim_C8_amended_ack_nack
    { exec := mkStubEnv c2job none (fun _ => Except.ok []) none none,
      channelAvailable := true } "w1" { jobID := "j2", deliveryTag := 5 } []).1 rfl).1

theorem natDecimalBytesAux_digits : ∀ (fuel n : Nat), n < fuel →
    ∀ b ∈ natDecimalBytesAux fuel n, 48 ≤ b ∧ b ≤ 57 := by
  intro fuel
  induction fuel with
  | zero => intro n h; omega
  | succ fuel ih =>
      intro n h b hb
      rw [natDecimalBytesAux] at hb
      by_cases h10 : n < 10
      · simp [h10] at hb; omega
      · simp [h10] at hb
        rcases hb with hb | hb
        · exact ih (n / 10) (by omega) b hb
        · omega

theorem natDecimalBytesAux_ne_nil (fuel n : Nat) (h : n < fuel) :
    natDecimalBytesAux fuel n ≠ [] := by
  cases fuel with
  | zero => omega
  | succ fuel => by_cases h10 : n < 10 <;> simp [natDecimalBytesAux, h10]

theorem natDecimalBytesAux_foldl : ∀ (fuel n acc : Nat), n < fuel →
    List.foldl (fun a d => a * 10 + (d - 48)) acc (natDecimalBytesAux fuel n)
      = acc * 10 ^ (natDecimalBytesAux fuel n).length + n := by
  intro fuel
  induction fuel with
  | zero => intro n acc h; omega
  | succ fuel ih =>
      intro n acc h
      rw [natDecimalBytesAux]
      by_cases h10 : n < 10
      · simp [h10]
      · simp only [h10, if_false, List.foldl_append, List.length_append,
          List.foldl_cons, List.foldl_nil, List.length_cons, List.length_nil]
        rw [ih (n / 10) acc (by omega)]
        have hsub : 48 + n % 10 - 48 = n % 10 := by omega
        rw [hsub]
        calc (acc * 10 ^ (natDecimalBytesAux fuel (n / 10)).length + n / 10) * 10
              + n % 10
            = acc * (10 ^ (natDecimalBytesAux fuel (n / 10)).length * 10)
              + (n / 10 * 10 + n % 10) := by ring
          _ = acc * 10 ^ ((natDecimalBytesAux fuel (n / 10)).length + (0 + 1)) + n := by
              have h1 : (natDecimalBytesAux fuel (n / 10)).length + (0 + 1)
                  = (natDecimalBytesAux fuel (n / 10)).length + 1 := by omega
              have h2 : n / 10 * 10 + n % 10 = n := by omega
              rw [h1, pow_succ, h2]

theorem natDecimalBytes_digits (n : Nat) :
    ∀ b ∈ natDecimalBytes n, 48 ≤ b ∧ b ≤ 57 :=
  natDecimalBytesAux_digits (n + 1) n (by omega)

theorem natDecimalBytes_ne_nil (n : Nat) : natDecimalBytes n ≠ [] :=
  natDecimalBytesAux_ne_nil (n + 1) n (by omega)

theorem digitsVal_natDecimalBytes (n : Nat) : digitsVal (natDecimalBytes n) = n := by
  have := natDecimalBytesAux_foldl (n + 1) n 0 (by omega)
  simpa [digitsVal, natDecimalBytes] using this

theorem takeDigits_all (ds : List Nat) (h : ∀ b ∈ ds, isDigitByte b = true) :
    takeDigits ds = (ds, []) := by
  induction ds with
  | nil => rfl
  | cons b l ih =>
      simp [takeDigits, h b (by simp), ih (fun x hx => h x (by simp [hx]))]

theorem parseIntBytes_intDecimalBytes (i : Int) :
    parseIntBytes (intDecimalBytes i) = some i := by
  cases i with
  | ofNat n =>
      rcases hs : natDecimalBytes n with _ | ⟨b, rest⟩
      · exact absurd hs (natDecimalBytes_ne_nil n)
      · have hdig : ∀ x ∈ natDecimalBytes n, 48 ≤ x ∧ x ≤ 57 := natDecimalBytes_digits n
        have hb : 48 ≤ b ∧ b ≤ 57 := hdig b (by rw [hs]; simp)
        have htd : takeDigits (b :: rest) = (b :: rest, []) := by
          rw [← hs]
          exact takeDigits_all _ (fun x hx => by
            have := hdig x hx
            simp [isDigitByte]
            omega)
        have hval : digitsVal (b :: rest) = n := by
          rw [← hs]; exact digitsVal_natDecimalBytes n
        have hnw : ¬(b = 32 ∨ b = 9 ∨ b = 10 ∨ b = 13) := by omega
        simp only [intDecimalBytes, hs, parseIntBytes, List.dropWhile]
        simp only [show ((b = 32 || b = 9 || b = 10 || b = 13) : Bool) = false by
          simp; omega]
        have h45 : ¬(b = 45) := by omega
        have h43 : ¬(b = 43) := by omega
        simp [h45, h43, htd, hval]
  | negSucc m =>
      rcases hs : natDecimalBytes (m + 1) with _ | ⟨b, rest⟩
      · exact absurd hs (natDecimalBytes_ne_nil (m + 1))
      · have htd : takeDigits (natDecimalBytes (m + 1)) = (natDecimalBytes (m + 1), []) :=
          takeDigits_all _ (fun x hx => by
            have := natDecimalBytes_digits (m + 1) x hx
            simp [isDigitByte]
            omega)
        have hval : digitsVal (natDecimalBytes (m + 1)) = m + 1 :=
          digitsVal_natDecimalBytes (m + 1)
        have hne : natDecimalBytes (m + 1) ≠ [] := natDecimalBytes_ne_nil (m + 1)
        simp only [intDecimalBytes, parseIntBytes, List.dropWhile]
        norm_num
        simp [htd, hval, hne, Int.negSucc_eq]

theorem splitOnByte_no_sep (sep : Nat) (ys : List Nat) (h : ∀ b ∈ ys, b ≠ sep) :
    splitOnByte sep ys = [ys] := by
  induction ys with
  | nil => rfl
  | cons b l ih =>
      rw [splitOnByte]
      simp [h b (by simp), ih (fun x hx => h x (by simp [hx]))]

theorem splitOnByte_append (sep : Nat) (xs ys : List Nat)
    (h : ∀ b ∈ xs, b ≠ sep) :
    splitOnByte sep (xs ++ sep :: ys) = xs :: splitOnByte sep ys := by
  induction xs with
  | nil => simp [splitOnByte]
  | cons b l ih =>
      rw [List.cons_append, splitOnByte, ih (fun x hx => h x (by simp [hx]))]
      simp [h b (by simp)]

theorem b64_idx_char : ∀ n < 64, b64IndexOf (b64CharCode n) = some n := by decide

theorem b64_char_ne_61 : ∀ n < 64, b64CharCode n ≠ 61 := by decide

theorem b64encode_ne_nil (bs : List Nat) (h : bs ≠ []) : b64encode bs ≠ [] := by
  match bs with
  | [] => exact absurd rfl h
  | [a] => simp [b64encode]
  | [a, b] => simp [b64encode]
  | a :: b :: c :: rest => simp [b64encode]

theorem b64_roundtrip : ∀ (bs : List Nat), (∀ b ∈ bs, b < 256) →
    b64decode (b64encode bs) = some bs := by
  intro bs
  induction bs using b64encode.induct with
  | case1 => intro _; rfl
  | case2 a =>
      intro h
      have ha : a < 256 := h a (by simp)
      have h1 : b64IndexOf (b64CharCode (a / 4)) = some (a / 4) :=
        b64_idx_char _ (by omega)
      have h2 : b64IndexOf (b64CharCode (a % 4 * 16)) = some (a % 4 * 16) :=
        b64_idx_char _ (by omega)
      simp [b64encode, b64decode, h1, h2]
      omega
  | case3 a b =>
      intro h
      have ha : a < 256 := h a (by simp)
      have hb : b < 256 := h b (by simp)
      have h1 : b64IndexOf (b64CharCode (a / 4)) = some (a / 4) :=
        b64_idx_char _ (by omega)
      have h2 : b64IndexOf (b64CharCode (a % 4 * 16 + b / 16))
          = some (a % 4 * 16 + b / 16) := b64_idx_char _ (by omega)
      have h3 : b64IndexOf (b64CharCode (b % 16 * 4)) = some (b % 16 * 4) :=
        b64_idx_char _ (by omega)
      have hne3 : b64CharCode (b % 16 * 4) ≠ 61 := b64_char_ne_61 _ (by omega)
      simp [b64encode, b64decode, h1, h2, h3, hne3]
      omega
  | case4 a b c rest ih =>
      intro h
      have ha : a < 256 := h a (by simp)
      have hb : b < 256 := h b (by simp)
      have hc : c < 256 := h c (by simp)
      have h1 : b64IndexOf (b64CharCode (a / 4)) = some (a / 4) :=
        b64_idx_char _ (by omega)
      have h2 : b64IndexOf (b64CharCode (a % 4 * 16 + b / 16))
          = some (a % 4 * 16 + b / 16) := b64_idx_char _ (by omega)
      have h3 : b64IndexOf (b64CharCode (b % 16 * 4 + c / 64))
          = some (b % 16 * 4 + c / 64) := b64_idx_char _ (by omega)
      have h4 : b64IndexOf (b64CharCode (c % 64)) = some (c % 64) :=
        b64_idx_char _ (by omega)
      have hne3 : b64CharCode (b % 16 * 4 + c / 64) ≠ 61 := b64_char_ne_61 _ (by omega)
      have hne4 : b64CharCode (c % 64) ≠ 61 := b64_char_ne_61 _ (by omega)
      have hrest : b64decode (b64encode rest) = some rest :=
        ih (fun x hx => h x (by simp [hx]))
      simp [b64encode, b64decode, h1, h2, h3, h4, hne3, hne4, hrest]
      omega

theorem intDecimalBytes_bytes (i : Int) :
    ∀ b ∈ intDecimalBytes i, b = 45 ∨ (48 ≤ b ∧ b ≤ 57) := by
  cases i with
  | ofNat n => exact fun b hb => Or.inr (natDecimalBytes_digits n b hb)
  | negSucc m =>
      intro b hb
      rcases List.mem_cons.mp hb with rfl | hb
      · exact Or.inl rfl
      · exact Or.inr (natDecimalBytes_digits (m + 1) b hb)

/-- C10: for every cursor whose job id (a Go byte string, so bytes < 256 and
a nanosecond timestamp within int64 range) contains no bar byte,
`DecodeJobCursor` inverts `EncodeJobCursor` exactly — same job id, same
creation time at nanosecond precision; decoding the empty cursor yields no
cursor and no error; and any non-empty encoded content that does not split
into exactly two bar-separated parts is rejected with the
"invalid cursor format" error. -/
theorem claim_C10_cursor_roundtrip (c : JobCursor) (bs : List Nat)
    (hby : ∀ b ∈ c.jobID, b < 256) (hbar : ∀ b ∈ c.jobID, b ≠ 124)
    (hlo : -(2 ^ 63) ≤ c.createdAt) (hhi : c.createdAt < 2 ^ 63)
    (hbs : ∀ b ∈ bs, b < 256) (hbsne : bs ≠ [])
    (hsplit : (splitOnByte 124 bs).length ≠ 2) :
    DecodeJobCursor (EncodeJobCursor c) = Except.ok (some c)
  ∧ DecodeJobCursor [] = Except.ok none
  ∧ DecodeJobCursor (b64encode bs) = Except.error "invalid cursor format" := by
  refine ⟨?_, rfl, ?_⟩
  · have hcs_bytes : ∀ b ∈ intDecimalBytes c.createdAt ++ 124 :: c.jobID, b < 256 := by
      intro b hb
      rcases List.mem_append.mp hb with hb | hb
      · rcases intDecimalBytes_bytes c.createdAt b hb with rfl | hd <;> omega
      · rcases List.mem_cons.mp hb with rfl | hb
        · omega
        · exact hby b hb
    have hcs_ne : intDecimalBytes c.createdAt ++ 124 :: c.jobID ≠ [] := by simp
    have hne : EncodeJobCursor c ≠ [] := b64encode_ne_nil _ hcs_ne
    have hdec : b64decode (b64encode (intDecimalBytes c.createdAt ++ 124 :: c.jobID))
        = some (intDecimalBytes c.createdAt ++ 124 :: c.jobID) :=
      b64_roundtrip _ hcs_bytes
    have hsp : splitOnByte 124 (intDecimalBytes c.createdAt ++ 124 :: c.jobID)
        = [intDecimalBytes c.createdAt, c.jobID] := by
      rw [splitOnByte_append 124 _ _ (fun b hb => by
        rcases intDecimalBytes_bytes c.createdAt b hb with rfl | hd <;> omega)]
      rw [splitOnByte_no_sep 124 _ hbar]
    have hpi := parseIntBytes_intDecimalBytes c.createdAt
    rw [show EncodeJobCursor c
        = b64encode (intDecimalBytes c.createdAt ++ 124 :: c.jobID) from rfl] at hne ⊢
    simp only [DecodeJobCursor, hne, if_false, hdec, hsp, hpi]
  · have hne2 : b64encode bs ≠ [] := b64encode_ne_nil bs hbsne
    have hdec2 : b64decode (b64encode bs) = some bs := b64_roundtrip bs hbs
    rcases hsp2 : splitOnByte 124 bs with _ | ⟨p0, t⟩
    · simp [DecodeJobCursor, hne2, hdec2, hsp2]
    · rcases t with _ | ⟨p1, t2⟩
      · simp [DecodeJobCursor, hne2, hdec2, hsp2]
      · rcases t2 with _ | ⟨p2, t3⟩
        · exact absurd (by rw [hsp2]; rfl) hsplit
        · simp [DecodeJobCursor, hne2, hdec2, hsp2]

theorem claim_C10_witness :
    DecodeJobCursor (EncodeJobCursor { createdAt := -7, jobID := [106, 49] }) =
      Except.ok (some { createdAt := -7, jobID := [106, 49] }) :=
  (claim_C10_cursor_roundtrip { createdAt := -7, jobID := [106, 49] } [49, 50]
    (by decide) (by decide) (by decide) (by decide) (by decide) (by decide)
    (by decide)).1
